import Mathlib

/-!
Shallow embedding of the training/validation orchestration of the
deep-atrous-guided-filter repository (`train_scripts/train.py` and
`val_scripts/val.py`).  Scalars (Python floats) are modelled as `ℚ`;
tensors are abstracted to lists of scalars; the generator forward pass,
loss values and metric kernels are oracle parameters, since the spec
treats them as external collaborators.  Counter arithmetic (`global_step`,
`start_epoch`) uses `ℕ` with Python's floor division.
-/

namespace DAGF

/-! ### Step executor: train.py lines 141-216, one batch of the inner loop -/

/-- Oracle values for the external loss/metric collaborators consumed by one
training step: `d_loss.total_loss`, `PSNR(output, target)`, and the four
sub-terms exposed by `GLoss` (total, adversarial, perception, image). -/
structure StepOracles where
  dTotal : ℚ
  psnr : ℚ
  gTotal : ℚ
  advLoss : ℚ
  percLoss : ℚ
  imgLoss : ℚ
deriving DecidableEq

/-- Observable trace of one training step: how many discriminator forward
passes ran (`D(target)` / `D(output)` calls), how many discriminator
optimizer steps ran, the fractional-epoch cursors passed to the two LR
schedulers, and the ordered loss mapping built into `loss_dict`. -/
structure StepTrace where
  dForwardCalls : ℕ
  dOptimizerSteps : ℕ
  gSchedCursor : ℚ
  dSchedCursor : Option ℚ
  losses : List (String × ℚ)
deriving DecidableEq

/-- One per-batch training update, mirroring train.py lines 148-216.
The branch condition is `if args.lambda_adversarial:` (Python float
truthiness, i.e. nonzero); it does not inspect `epoch`.  In the adversarial
branch the discriminator is run twice for its own update (lines 162-163)
and twice for the generator update (lines 182-183); in the other branch
`loss_dict["d_loss"] += 0.0` on a `defaultdict(float)` yields exactly `0`.
Keys are listed in `loss_dict` insertion order (lines 169/172, 197,
209-212). -/
def trainStep (lambdaAdversarial : ℚ) (pretrainEpochs epoch i numBatches : ℕ)
    (o : StepOracles) : StepTrace :=
  if lambdaAdversarial ≠ 0 then
    { dForwardCalls := 4
      dOptimizerSteps := 1
      gSchedCursor := (epoch : ℚ) + (i : ℚ) / (numBatches : ℚ)
      dSchedCursor := some ((epoch : ℚ) - (pretrainEpochs : ℚ) + (i : ℚ) / (numBatches : ℚ))
      losses := [("d_loss", o.dTotal), ("train_PSNR", o.psnr), ("g_loss", o.gTotal),
                 ("adversarial_loss", o.advLoss), ("perception_loss", o.percLoss),
                 ("image_loss", o.imgLoss)] }
  else
    { dForwardCalls := 0
      dOptimizerSteps := 0
      gSchedCursor := (epoch : ℚ) + (i : ℚ) / (numBatches : ℚ)
      dSchedCursor := none
      losses := [("d_loss", 0), ("train_PSNR", o.psnr), ("g_loss", o.gTotal),
                 ("adversarial_loss", o.advLoss), ("perception_loss", o.percLoss),
                 ("image_loss", o.imgLoss)] }

/-- A fixed concrete oracle used for counterexamples and witnesses. -/
def oneOracles : StepOracles := ⟨1, 1, 1, 1, 1, 1⟩

/-! ### Resume arithmetic: train.py lines 97-101 (same shape in val.py 74-77) -/

/-- The step count one full epoch adds to `global_step`: the inner loop runs
`len(train_loader)` batches and adds `args.batch_size` per batch (line 216). -/
def stepsPerEpoch (numBatches batchSize : ℕ) : ℕ := numBatches * batchSize

/-- Lines 97-99: `if not global_step: global_step = start_epoch *
len(data.train_loader) * args.batch_size`.  A record lacking `global_step`
is modelled as `none`; Python falsiness also catches a stored `0`. -/
def reconstructGlobalStep (numBatches batchSize loadedEpoch : ℕ) :
    Option ℕ → ℕ
  | none => loadedEpoch * numBatches * batchSize
  | some g => if g = 0 then loadedEpoch * numBatches * batchSize else g

/-- Line 101: `start_epoch = global_step // len(data.train_loader.dataset)` —
the divisor is the dataset length. -/
def deriveStartEpoch (datasetSize g : ℕ) : ℕ := g / datasetSize

/-- The resume-initialisation sequence of lines 97-101: reconstruct a missing
`global_step`, then derive `start_epoch` from the result. -/
def resumeInit (numBatches batchSize datasetSize loadedEpoch : ℕ)
    (loadedGS : Option ℕ) : ℕ × ℕ :=
  let g := reconstructGlobalStep numBatches batchSize loadedEpoch loadedGS
  (g, deriveStartEpoch datasetSize g)

/-- The spec's derivation rule, stated from its words for comparison:
`epoch = global_step // steps_per_epoch`. -/
def deriveStartEpochSpec (numBatches batchSize g : ℕ) : ℕ :=
  g / stepsPerEpoch numBatches batchSize

/-! ### Resume-skip guard: train.py lines 141-146 and the counter at 216 -/

/-- The inner batch loop of one epoch restricted to its control flow and
counters.  Before each batch `i` the guard of lines 143-146 runs:
`if ((global_step + 1) % (len(train_loader) * batch_size) == 0) and
(epoch == start_epoch): break` — a `break`, aborting the rest of the epoch.
Otherwise the batch executes and `global_step += batch_size` (line 216).
Returns the executed batch indices and the final `global_step`. -/
def epochBatchLoop (numBatches batchSize startEpoch epoch : ℕ) :
    ℕ → List ℕ → List ℕ × ℕ
  | g, [] => ([], g)
  | g, i :: rest =>
    if (g + 1) % (numBatches * batchSize) = 0 ∧ epoch = startEpoch then
      ([], g)
    else
      let r := epochBatchLoop numBatches batchSize startEpoch epoch
        (g + batchSize) rest
      (i :: r.1, r.2)

/-- One epoch's batch loop over batches `0, …, numBatches - 1`. -/
def runEpoch (numBatches batchSize startEpoch epoch g : ℕ) : List ℕ × ℕ :=
  epochBatchLoop numBatches batchSize startEpoch epoch g
    (List.range numBatches)

/-! ### Validation pass best tracking: train.py lines 296-420 -/

/-- One `save_weights` invocation as seen from the orchestrator: the tag
argument, the `is_min` flag, and the counters/loss passed. -/
structure SaveCall where
  tag : String
  isMin : Bool
  epoch : ℕ
  globalStep : ℕ
  loss : ℚ
deriving DecidableEq

/-- Modelled from the spec: `save_weights` (utils/train_helper.py, not under
src/) writes the "best" checkpoint artifact exactly when the caller passes
`is_min = True` — spec §4.2: the "best" artifact "is written only when
ValidationRunner determines the new validation loss is strictly lower than
the previously recorded best". -/
def writesBest (c : SaveCall) : Bool := c.isMin

/-- Modelled from the spec: `AvgLoss_with_dict` (utils/train_helper.py, not
under src/) is the AverageAccumulator, "arithmetic mean over all folds since
last reset". -/
def averageOf (xs : List ℚ) : ℚ := xs.sum / (xs.length : ℚ)

/-- The best-loss part of one validation pass, mirroring lines 296-420.
The whole block is guarded by `if data.val_loader:`; a `DataLoader` has no
`__bool__` but has `__len__`, so an empty loader is falsy and the guard
skips everything.  Otherwise the per-batch generator losses are folded into
the mean accumulator (reset at line 299), then lines 399-418 run: `is_min =
avg < loss` with strict `<`, `loss` updated only on improvement, and a
single `save_weights(..., is_min=is_min, tag="best")` call.  Returns the
new best loss and the list of save calls made. -/
def valPass (epoch globalStep : ℕ) (batchGLosses : List ℚ) (best : ℚ) :
    ℚ × List SaveCall :=
  if batchGLosses.isEmpty then (best, [])
  else
    let avg := averageOf batchGLosses
    let isMin := decide (avg < best)
    let best2 := if avg < best then avg else best
    (best2, [⟨"best", isMin, epoch, globalStep, best2⟩])

/-- Number of "best" artifact writes among a list of save calls. -/
def bestWrites (cs : List SaveCall) : ℕ := (cs.filter writesBest).length

/-- Folding a sequence of validation passes over the best-loss tracker. -/
def valPassSeq (epoch globalStep : ℕ) : List (List ℚ) → ℚ → ℚ
  | [], best => best
  | p :: ps, best =>
    valPassSeq epoch globalStep ps (valPass epoch globalStep p best).1

/-! ### Static validation sample: train.py lines 324-329 and 367-393 -/

/-- One validation batch: per-index source and target values and the batch's
filename list. -/
structure ValBatch where
  source : List ℚ
  target : List ℚ
  filenames : List String
deriving DecidableEq

/-- Lines 324-329 run once per batch in loader order: `if
args.static_val_image in filename:` stores this batch's
`filename/source/target/output` into the `*_static` variables, overwriting
whatever an earlier batch stored. -/
def staticFoldStep (tracked : String) (acc : Option ValBatch) (b : ValBatch) :
    Option ValBatch :=
  if b.filenames.contains tracked then some b else acc

/-- The `*_static` variables at the end of the validation loop:
`filename_static` starts as `[]` (line 298) and each matching batch
overwrites it. -/
def staticSelect (tracked : String) (batches : List ValBatch) :
    Option ValBatch :=
  batches.foldl (staticFoldStep tracked) none

/-- Lines 367-393: iterate the stored `filename_static`, and at the first
index whose name equals the tracked filename export the
(source, target, output) triple and `break`; an empty `filename_static`
exports nothing.  The generator is the elementwise oracle `G`, so the stored
`output_static[e]` is `G (source_static[e])`. -/
def staticExport (G : ℚ → ℚ) (tracked : String) (batches : List ValBatch) :
    Option (ℚ × ℚ × ℚ) :=
  match staticSelect tracked batches with
  | none => none
  | some b =>
    match b.filenames.findIdx? (fun f => f == tracked) with
    | none => none
    | some e => some (b.source.getD e 0, b.target.getD e 0,
        G (b.source.getD e 0))

/-- The spec's selection rule, stated from its words for comparison: the
FIRST batch containing the tracked filename wins. -/
def staticSelectSpecFirst (tracked : String) (batches : List ValBatch) :
    Option ValBatch :=
  batches.find? (fun b => b.filenames.contains tracked)

/-! ### Interrupt handler: train.py lines 486-504 -/

/-- The counters the interrupt handler reads. -/
structure LoopState where
  epoch : ℕ
  globalStep : ℕ
deriving DecidableEq

/-- Effect of one COMPLETED training step on the counters: line 216,
`global_step += args.batch_size`, runs only after the optimizer steps of the
batch have finished. -/
def stepAdvance (batchSize : ℕ) (st : LoopState) : LoopState :=
  { st with globalStep := st.globalStep + batchSize }

/-- Counters after `k` completed steps of the current epoch; a step
interrupted in flight never reaches line 216 and leaves them untouched. -/
def counterAfter (batchSize : ℕ) (st0 : LoopState) : ℕ → LoopState
  | 0 => st0
  | k + 1 => stepAdvance batchSize (counterAfter batchSize st0 k)

/-- The `except KeyboardInterrupt` handler, lines 486-504: a single
`save_weights(epoch=epoch, global_step=global_step, ..., is_min=True)` call
with the counters as they stand (default tag). -/
def interruptHandler (st : LoopState) (loss : ℚ) : List SaveCall :=
  [⟨"latest", true, st.epoch, st.globalStep, loss⟩]

/-- A run interrupted during step `k + 1`: `k` completed steps mutated the
counters, then the handler fires. -/
def interruptedRun (batchSize : ℕ) (st0 : LoopState) (k : ℕ) (loss : ℚ) :
    List SaveCall :=
  interruptHandler (counterAfter batchSize st0 k) loss

/-! ### Standalone evaluation script: val.py -/

/-- The configuration fields val.py touches. -/
structure ValArgs where
  lambdaPerception : ℚ
  finetune : Bool
  batchSize : ℕ
  inferenceMode : String
deriving DecidableEq

/-- val.py lines 47-49, executed before `get_dataloaders`:
`args.lambda_perception = 0.0`, `args.finetune = False`,
`args.batch_size = 1`. -/
def valScriptOverride (a : ValArgs) : ValArgs :=
  { a with lambdaPerception := 0, finetune := false, batchSize := 1 }

/-- The loaders returned by the external `get_dataloaders`. -/
structure Loaders where
  trainLoader : List ValBatch
  valLoader : List ValBatch
deriving DecidableEq

/-- val.py line 58: `data.val_loader = data.train_loader`. -/
def valScriptLoaders (d : Loaders) : Loaders :=
  { d with valLoader := d.trainLoader }

/-- Observable outcome of the val.py main loop (lines 95-159): which batch
stream was iterated for metrics, the averaged PSNR over it, and the export
destinations `(val_path, "output_" + name)` where
`val_path = output_dir / f"val_{args.inference_mode}"`. -/
structure ValScriptResult where
  metricsOver : List ValBatch
  psnrAvg : ℚ
  exportPaths : List (String × String)
deriving DecidableEq

/-- The val.py pipeline: override the config, replace the validation loader
with the training loader, then iterate `data.val_loader` computing metrics
and dumping one image per index `e in range(args.batch_size)`. -/
def valScriptRun (psnrOf : ValBatch → ℚ) (a : ValArgs) (d : Loaders) :
    ValScriptResult :=
  let a2 := valScriptOverride a
  let d2 := valScriptLoaders d
  { metricsOver := d2.valLoader
    psnrAvg := averageOf (d2.valLoader.map psnrOf)
    exportPaths :=
      (d2.valLoader.map (fun b =>
        (b.filenames.take a2.batchSize).map (fun name =>
          ("val_" ++ a2.inferenceMode, "output_" ++ name)))).flatten }

/-- First concrete validation batch for the static-sample analysis. -/
def batchA : ValBatch := ⟨[1], [10], ["x"]⟩

/-- Second concrete validation batch containing the same tracked filename. -/
def batchB : ValBatch := ⟨[2], [20], ["x"]⟩

/-- A validation batch that does not contain the tracked filename. -/
def batchC : ValBatch := ⟨[0], [0], ["y"]⟩

/-! ## Helper lemmas -/

theorem valPass_fst_le (epoch gs : ℕ) (p : List ℚ) (b : ℚ) :
    (valPass epoch gs p b).1 ≤ b := by
  by_cases h : p.isEmpty <;> simp [valPass, h]
  split_ifs with h2
  · exact le_of_lt h2
  · exact le_refl b

theorem valPassSeq_le (epoch gs : ℕ) (ps : List (List ℚ)) :
    ∀ b : ℚ, valPassSeq epoch gs ps b ≤ b := by
  induction ps with
  | nil => intro b; exact le_refl b
  | cons p ps ih =>
      intro b
      exact le_trans (ih _) (valPass_fst_le epoch gs p b)

theorem staticSelect_foldl (tracked : String) (l : List ValBatch) :
    ∀ acc : Option ValBatch,
      l.foldl (staticFoldStep tracked) acc
        = ((l.reverse.find? (fun b => b.filenames.contains tracked)).elim
            acc some) := by
  induction l with
  | nil => intro acc; rfl
  | cons b l ih =>
      intro acc
      rw [List.foldl_cons, ih, List.reverse_cons, List.find?_append]
      cases hf : l.reverse.find? (fun b => b.filenames.contains tracked) with
      | some x => rfl
      | none =>
          cases hb : b.filenames.contains tracked with
          | true =>
              simp only [staticFoldStep, List.find?, hb, Option.or,
                Option.elim, if_true]
          | false =>
              simp only [staticFoldStep, List.find?, hb, Option.or,
                Option.elim, if_false]
              rfl

theorem counterAfter_spec (bs k : ℕ) (st0 : LoopState) :
    counterAfter bs st0 k = ⟨st0.epoch, st0.globalStep + k * bs⟩ := by
  induction k with
  | zero => simp [counterAfter]
  | succ n ih =>
      simp [counterAfter, ih, stepAdvance, Nat.succ_mul, Nat.add_assoc]

/-! ## Claim theorems -/

/-- C1: counterexample — at epoch 0 with `pretrain_epoch_count = 3` (so
`epoch < pretrain_epoch_count`) but a nonzero adversarial weight, the
per-step update performs four discriminator forward passes, refuting the
claim that the discriminator is never invoked below the pretrain epoch
count. -/
theorem c1_counterexample :
    (0 : ℕ) < 3 ∧ (trainStep 1 3 0 0 10 oneOracles).dForwardCalls = 4 := by
  constructor
  · decide
  · norm_num [trainStep]

/-- C1 (amended): discriminator invocation is a pure function of the
adversarial-loss weight being nonzero, uniform over epochs — a step invokes
the discriminator iff `lambda_adversarial ≠ 0`, regardless of `epoch` or
`pretrain_epochs`, which never enter the mode decision. -/
theorem c1_amended (lam : ℚ) (pe epoch i nb : ℕ) (o : StepOracles) :
    ((trainStep lam pe epoch i nb o).dForwardCalls = 0 ↔ lam = 0) ∧
    (lam ≠ 0 → (trainStep lam pe epoch i nb o).dForwardCalls = 4 ∧
      (trainStep lam pe epoch i nb o).dOptimizerSteps = 1) ∧
    ∀ epoch2 pe2 : ℕ,
      (trainStep lam pe2 epoch2 i nb o).dForwardCalls
        = (trainStep lam pe epoch i nb o).dForwardCalls := by
  by_cases h : lam = 0
  · subst h
    refine ⟨by simp [trainStep], by simp, ?_⟩
    intro e2 p2
    simp [trainStep]
  · exact ⟨by simp [trainStep, h], fun _ => by simp [trainStep, h],
      fun e2 p2 => by simp [trainStep, h]⟩

/-- C1 amended witness at a concrete nonzero weight. -/
theorem c1_amended_witness :
    (trainStep 1 3 0 0 10 oneOracles).dForwardCalls = 4 ∧
    (trainStep 1 3 0 0 10 oneOracles).dOptimizerSteps = 1 :=
  (c1_amended 1 3 0 0 10 oneOracles).2.1 (by norm_num)

/-- C2: evaluation of the resume guard at the spec's own scenario — 10
batches, batch size 10 (so 100 steps per epoch), loaded `global_step = 50`,
resumed epoch.  The guard `(global_step + 1) % 100 == 0` never fires, so
ALL ten batches (indices 0-9) execute and `global_step` ends at 150; the
claim requires only batches 6-10 (indices 5-9) to run, ending at 100. -/
theorem c2_code_behavior :
    runEpoch 10 10 0 0 50 = (List.range 10, 150) ∧
    (runEpoch 10 10 0 0 50).1 ≠ [5, 6, 7, 8, 9] := by decide

/-- C3: evaluation at the failing input — a checkpoint recorded as epoch 3
with no stored `global_step`, 2 batches per epoch, batch size 10, dataset
length 15.  Lines 97-99 reconstruct `global_step = 3 * 2 * 10 = 60`, but
line 101 derives `start_epoch = 60 // 15 = 4` (dividing by the dataset
length), while the claim's formula `global_step // steps_per_epoch` gives
back 3, the epoch active when the checkpoint was written. -/
theorem c3_code_behavior :
    resumeInit 2 10 15 3 none = (60, 4) ∧
    deriveStartEpochSpec 2 10 60 = 3 ∧
    deriveStartEpoch 15 60 ≠ deriveStartEpochSpec 2 10 60 := by decide

/-- C4: across any sequence of validation passes the recorded best loss is
non-increasing; in any single validation pass over a nonempty loader the
orchestrator makes exactly one save call, and that call writes the "best"
artifact iff the averaged generator loss is strictly below the previous
best (a tie does not count). -/
theorem c4_best_checkpoint (epoch gs : ℕ) (passes : List (List ℚ))
    (best : ℚ) (losses : List ℚ) (hne : losses ≠ []) :
    valPassSeq epoch gs passes best ≤ best ∧
    (valPass epoch gs losses best).1 ≤ best ∧
    (bestWrites (valPass epoch gs losses best).2 = 1 ↔
      averageOf losses < best) ∧
    (valPass epoch gs losses best).2.length = 1 := by
  have h : losses.isEmpty = false := by
    simpa [List.isEmpty_iff] using hne
  refine ⟨valPassSeq_le epoch gs passes best,
    valPass_fst_le epoch gs losses best, ?_, ?_⟩
  · by_cases h2 : averageOf losses < best <;>
      simp [valPass, bestWrites, writesBest, h, h2, List.filter]
  · simp [valPass, h]

/-- C4 witness: one pass with average loss 1 against best 2. -/
theorem c4_witness :
    valPassSeq 0 0 [[1]] 2 ≤ 2 ∧
    (valPass 0 0 [1] 2).1 ≤ 2 ∧
    (bestWrites (valPass 0 0 [1] 2).2 = 1 ↔ averageOf [1] < 2) ∧
    (valPass 0 0 [1] 2).2.length = 1 :=
  c4_best_checkpoint 0 0 [[1]] 2 [1] (by decide)

/-- C5: a validation pass with an empty loader is skipped by the
`if data.val_loader:` guard — the best loss is unchanged, no save call is
made, hence no "best" write occurs. -/
theorem c5_empty_val (epoch gs : ℕ) (best : ℚ) :
    valPass epoch gs [] best = (best, []) ∧
    bestWrites (valPass epoch gs [] best).2 = 0 := by
  constructor <;> simp [valPass, bestWrites]

/-- C6: counterexample — the tracked filename "x" appears in both batches of
a pass; the code overwrites the stored statics on every match, so the
exported (input, target, output) triple is the one of the SECOND (last)
matching batch, not the first as claimed. -/
theorem c6_counterexample :
    staticExport (fun q => q) "x" [batchA, batchB] = some (2, 20, 2) ∧
    staticSelect "x" [batchA, batchB] = some batchB ∧
    staticSelectSpecFirst "x" [batchA, batchB] = some batchA ∧
    batchA ≠ batchB := by
  refine ⟨rfl, rfl, rfl, ?_⟩
  decide

/-- C6 (amended): the static sample exported by a validation pass comes from
the LAST batch containing the tracked filename (within that batch, the
first matching index); if the filename appears in no batch, the export is
skipped without error. -/
theorem c6_amended (tracked : String) (batches : List ValBatch)
    (G : ℚ → ℚ) :
    staticSelect tracked batches
      = batches.reverse.find? (fun b => b.filenames.contains tracked) ∧
    ((batches.all (fun b => !(b.filenames.contains tracked))) = true →
      staticExport G tracked batches = none) := by
  have hsel : staticSelect tracked batches
      = ((batches.reverse.find?
          (fun b => b.filenames.contains tracked)).elim none some) :=
    staticSelect_foldl tracked batches none
  have helim : ∀ o : Option ValBatch, o.elim (none : Option ValBatch) some = o := by
    intro o
    cases o <;> rfl
  constructor
  · rw [hsel, helim]
  · intro hall
    have hnone : batches.reverse.find?
        (fun b => b.filenames.contains tracked) = none := by
      rw [List.find?_eq_none]
      intro x hx
      have hx2 : x ∈ batches := List.mem_reverse.mp hx
      have := List.all_eq_true.mp hall x hx2
      simp at this
      simp [this]
    have : staticSelect tracked batches = none := by
      rw [hsel, hnone]
      rfl
    simp [staticExport, this]

/-- C6 amended witness: the tracked filename appears in no batch, so the
export is skipped. -/
theorem c6_amended_witness :
    staticExport (fun q => q) "x" [batchC] = none :=
  (c6_amended "x" [batchC] (fun q => q)).2 (by decide)

/-- C7: in a step with adversarial weight zero no discriminator computation
runs (no forward pass, no optimizer step), the `d_loss` entry of the loss
mapping is exactly 0, and the key shape of the loss mapping is identical to
the adversarial mode's. -/
theorem c7_pretrain_step (lam : ℚ) (pe epoch i nb : ℕ) (o o2 : StepOracles)
    (h : lam = 0) :
    (trainStep lam pe epoch i nb o).dForwardCalls = 0 ∧
    (trainStep lam pe epoch i nb o).dOptimizerSteps = 0 ∧
    List.lookup "d_loss" (trainStep lam pe epoch i nb o).losses = some 0 ∧
    ∀ lam2 : ℚ,
      ((trainStep lam2 pe epoch i nb o2).losses.map Prod.fst)
        = ((trainStep lam pe epoch i nb o).losses.map Prod.fst) := by
  subst h
  refine ⟨by simp [trainStep], by simp [trainStep], ?_, ?_⟩
  · simp [trainStep, List.lookup]
  · intro lam2
    by_cases h2 : lam2 = 0 <;> simp [trainStep, h2]

/-- C7 witness at weight 0 (and 5 for the cross-mode key comparison). -/
theorem c7_witness :
    (trainStep 0 1 0 0 10 oneOracles).dForwardCalls = 0 ∧
    List.lookup "d_loss" (trainStep 0 1 0 0 10 oneOracles).losses = some 0 ∧
    ((trainStep 5 1 0 0 10 oneOracles).losses.map Prod.fst)
      = ((trainStep 0 1 0 0 10 oneOracles).losses.map Prod.fst) :=
  ⟨(c7_pretrain_step 0 1 0 0 10 oneOracles oneOracles rfl).1,
   (c7_pretrain_step 0 1 0 0 10 oneOracles oneOracles rfl).2.2.1,
   (c7_pretrain_step 0 1 0 0 10 oneOracles oneOracles rfl).2.2.2 5⟩

/-- C8: a run interrupted during step `k + 1` performs exactly one
checkpoint save, carrying the epoch and the `global_step` of the `k`
completed steps — the in-flight step never reached the counter increment
and is abandoned. -/
theorem c8_interrupt (bs k : ℕ) (st0 : LoopState) (loss : ℚ) :
    (interruptedRun bs st0 k loss).length = 1 ∧
    interruptedRun bs st0 k loss
      = [⟨"latest", true, st0.epoch, st0.globalStep + k * bs, loss⟩] := by
  refine ⟨rfl, ?_⟩
  simp [interruptedRun, interruptHandler, counterAfter_spec]

/-- C9: a loaded record lacking `global_step` is reconstructed as
`epoch * steps_per_epoch` (with `steps_per_epoch = len(train_loader) *
batch_size`), and the starting epoch is then derived from that
reconstructed value. -/
theorem c9_backcompat (nb bs N e : ℕ) :
    resumeInit nb bs N e none
      = (e * stepsPerEpoch nb bs,
         deriveStartEpoch N (e * stepsPerEpoch nb bs)) := by
  simp [resumeInit, reconstructGlobalStep, stepsPerEpoch, deriveStartEpoch,
    Nat.mul_assoc]

/-- C10: the standalone evaluation script forces batch size 1 and perceptual
weight 0 before any data is read, replaces the validation loader with the
training loader, computes its metrics over the training batches, and every
exported image goes under the `val_`-prefixed output directory. -/
theorem c10_val_script (psnrOf : ValBatch → ℚ) (a : ValArgs) (d : Loaders) :
    (valScriptOverride a).batchSize = 1 ∧
    (valScriptOverride a).lambdaPerception = 0 ∧
    (valScriptLoaders d).valLoader = d.trainLoader ∧
    (valScriptRun psnrOf a d).metricsOver = d.trainLoader ∧
    (valScriptRun psnrOf a d).psnrAvg
      = averageOf (d.trainLoader.map psnrOf) ∧
    ((valScriptRun psnrOf a d).exportPaths.all
      (fun p => p.1 == "val_" ++ a.inferenceMode)) = true := by
  refine ⟨rfl, rfl, rfl, rfl, rfl, ?_⟩
  simp only [valScriptRun, valScriptLoaders, valScriptOverride,
    List.all_eq_true]
  intro p hp
  simp only [List.mem_flatten, List.mem_map] at hp
  obtain ⟨l, ⟨b, hb, rfl⟩, hp⟩ := hp
  obtain ⟨name, hn, rfl⟩ := List.mem_map.mp hp
  simp

end DAGF
